import Mathlib

/-! PromiseService `static/api.js`: a shallow embedding

The browser script `src/main/resources/static/api.js` wraps `fetch` with
credential injection, error normalisation and session-expiry handling.
This file embeds the script as pure Lean functions over an explicit browser
state and settles the specification's claims against that embedding.

Conventions of the embedding:

* a JavaScript string is its sequence of UTF-16 code units (`JSString`);
  `js "..."` turns a Lean literal into that sequence;
* everything the script takes from its surroundings (the network, the user's
  answer to `confirm`, engine-defined texts) is a field of `Platform`;
* everything the script can change (storage, `location.href`, the requests
  handed to `fetch`, the dialogs shown) is a field of `Browser`;
* `console.log` / `console.error` calls have no effect on any of these and
  are left out;
* the built-ins the script calls (`JSON.parse`, `encodeURIComponent`,
  `includes`, `substring`, `toUpperCase`, ToString, ToBoolean) are modelled
  after ECMA-262 and ECMA-404; what depends on floating point or on Unicode
  tables is a field of `Platform`.

The options object of `apiFetch` is typed as the specification's RequestSpec:
`method` a string, `headers` a plain object with string values, `body` a
string, each possibly absent.
-/

set_option autoImplicit false

namespace PromiseService

/-! ## JavaScript strings -/

/-- A JavaScript string: the list of its UTF-16 code units. -/
abbrev JSString := List Nat

/-- UTF-16 encoding of one Unicode scalar value. -/
def utf16 (c : Char) : List Nat :=
  if c.toNat < 65536 then [c.toNat]
  else [55296 + (c.toNat - 65536) / 1024, 56320 + (c.toNat - 65536) % 1024]

/-- The JavaScript string written by a literal. -/
def js (s : String) : JSString := s.toList.flatMap utf16

/-- `String.prototype.includes(search)`: `search` occurs in `s` as a
contiguous run of code units. -/
def includes : JSString → JSString → Bool
  | [], search => search.isEmpty
  | c :: cs, search => search.isPrefixOf (c :: cs) || includes cs search

/-- `String.prototype.substring(start, end)`: the code units from index
`min start end` up to, not including, index `max start end`. -/
def substring (s : JSString) (start stop : Nat) : JSString :=
  (s.take (max start stop)).drop (min start stop)

/-- Decimal digits of a non-negative integer.  A template literal renders
an integral Number this way as long as the integer is at most 2^53 - 1,
which every HTTP status is. -/
def decimal (n : Nat) : JSString := (Nat.toDigits 10 n).map Char.toNat

/-- Upper-casing of one ASCII code unit. -/
def asciiUpper (c : Nat) : Nat := if 97 ≤ c ∧ c ≤ 122 then c - 32 else c

/-- ToBoolean of a value that is a string or absent (`null` / `undefined`):
only a non-empty string is truthy. -/
def truthy : Option JSString → Bool
  | some (_ :: _) => true
  | _ => false

/-! ## `encodeURIComponent` -/

/-- A code unit that `encodeURIComponent` copies unchanged: ASCII letters,
digits and the marks `- _ . ! ~ * ' ( )`. -/
def uriUnescaped (c : Nat) : Bool :=
  (65 ≤ c && c ≤ 90) || (97 ≤ c && c ≤ 122) || (48 ≤ c && c ≤ 57) ||
  c == 45 || c == 95 || c == 46 || c == 33 || c == 126 || c == 42 ||
  c == 39 || c == 40 || c == 41

/-- A leading (high) surrogate code unit. -/
def isLeadSurrogate (c : Nat) : Bool := 55296 ≤ c && c ≤ 56319

/-- A trailing (low) surrogate code unit. -/
def isTrailSurrogate (c : Nat) : Bool := 56320 ≤ c && c ≤ 57343

/-- UTF-8 octets of a code point. -/
def utf8 (cp : Nat) : List Nat :=
  if cp < 128 then [cp]
  else if cp < 2048 then [192 + cp / 64, 128 + cp % 64]
  else if cp < 65536 then [224 + cp / 4096, 128 + cp / 64 % 64, 128 + cp % 64]
  else [240 + cp / 262144, 128 + cp / 4096 % 64, 128 + cp / 64 % 64, 128 + cp % 64]

/-- An upper-case hexadecimal digit. -/
def hexDigit (n : Nat) : Nat := if n < 10 then 48 + n else 55 + n

/-- Percent-escapes of a list of octets: `%XX` for each. -/
def percent (octets : List Nat) : JSString :=
  octets.flatMap fun o => [37, hexDigit (o / 16), hexDigit (o % 16)]

/-- The built-in `encodeURIComponent`; `none` stands for the `URIError` it
throws on an unpaired surrogate. -/
def encodeURIComponent : JSString → Option JSString
  | [] => some []
  | c :: rest =>
    if uriUnescaped c then (encodeURIComponent rest).map (c :: ·)
    else if isLeadSurrogate c then
      match rest with
      | d :: rest' =>
        if isTrailSurrogate d then
          (encodeURIComponent rest').map
            (percent (utf8 ((c - 55296) * 1024 + (d - 56320) + 65536)) ++ ·)
        else none
      | [] => none
    else if isTrailSurrogate c then none
    else (encodeURIComponent rest).map (percent (utf8 c) ++ ·)

/-- `String.prototype.isWellFormed`: no unpaired surrogate. -/
def isWellFormed : JSString → Bool
  | [] => true
  | c :: rest =>
    if isLeadSurrogate c then
      match rest with
      | d :: rest' => isTrailSurrogate d && isWellFormed rest'
      | [] => false
    else !isTrailSurrogate c && isWellFormed rest

/-! ## Plain objects with string values, and `localStorage` -/

/-- A plain object whose property values are strings (a headers object),
in property order. -/
abbrev Headers := List (JSString × JSString)

/-- Property read `headers[name]`; `none` is `undefined`. -/
def Headers.get : Headers → JSString → Option JSString
  | [], _ => none
  | (k, v) :: rest, name => if k = name then some v else Headers.get rest name

/-- Property write `headers[name] = value`: an existing property keeps its
place, a new one goes last. -/
def Headers.set : Headers → JSString → JSString → Headers
  | [], name, value => [(name, value)]
  | (k, v) :: rest, name, value =>
    if k = name then (k, value) :: rest else (k, v) :: Headers.set rest name value

/-- The contents of `localStorage`: keys and their string values. -/
abbrev Storage := List (JSString × JSString)

/-- Storage read `localStorage.getItem(key)`; `none` is `null`. -/
def Storage.getItem : Storage → JSString → Option JSString
  | [], _ => none
  | (k, v) :: rest, key => if k = key then some v else Storage.getItem rest key

/-- Storage delete `localStorage.removeItem(key)`. -/
def Storage.removeItem (s : Storage) (key : JSString) : Storage :=
  s.filter fun kv => kv.1 ≠ key

/-- Storage write `localStorage.setItem(key, value)`. -/
def Storage.setItem (s : Storage) (key value : JSString) : Storage :=
  (key, value) :: s.removeItem key

/-! ## Requests, responses and the surroundings of the script -/

/-- An `Error` object, as far as the script looks at it: its class name
and its `message`. -/
structure JSError where
  name : JSString
  message : JSString
  deriving DecidableEq

/-- The `options` argument of `apiFetch` (RequestSpec): `method`, `headers`
and `body`, each possibly absent. -/
structure RequestInit where
  method : Option JSString := none
  headers : Option Headers := none
  body : Option JSString := none
  deriving DecidableEq

/-- A response whose body has arrived: the status code and the body text
that `response.text()` yields and `response.json()` parses. -/
structure Response where
  status : Nat
  text : JSString
  deriving DecidableEq

/-- The getter `response.ok`: the status is in the range 200 to 299. -/
def Response.ok (r : Response) : Bool := 200 ≤ r.status && r.status ≤ 299

/-- What the script takes from its surroundings.

* `fetch url init` is the outcome of the round trip: `.error e` when the
  promise of `fetch` rejects or the body cannot be read, else the response;
* `confirm text` is the user's answer to the dialog;
* `upperNonAscii` is `toUpperCase` on strings with a non-ASCII code unit;
* `numberToString` and `numberToBoolean` are ToString and ToBoolean of the
  Number denoted by a JSON number token (floating point, left to the engine);
* `integerToString` is ToString of an integral Number above 2^53 - 1, where
  the Number is a rounded double and the text need not spell its digits
  (`1e+21` for 10^21);
* `syntaxError text` is the `SyntaxError` of `response.json()` on a body that
  is not JSON, `uriError` the `URIError` of `encodeURIComponent`. -/
structure Platform where
  fetch : JSString → RequestInit → Except JSError Response
  confirm : JSString → Bool
  upperNonAscii : JSString → JSString
  numberToString : JSString → JSString
  numberToBoolean : JSString → Bool
  integerToString : Nat → JSString
  syntaxError : JSString → JSError
  uriError : JSError

/-- What the script can change: the storage, the values assigned to
`location.href`, the calls made to `fetch` and the `confirm` dialogs shown
(each list oldest first). -/
structure Browser where
  localStorage : Storage := []
  hrefs : List JSString := []
  requests : List (JSString × RequestInit) := []
  dialogs : List JSString := []
  deriving DecidableEq

/-- `String.prototype.toUpperCase`: on an all-ASCII string the letters a-z
become A-Z; other strings are left to the engine's Unicode tables. -/
def toUpperCase (P : Platform) (s : JSString) : JSString :=
  if s.all (· < 128) then s.map asciiUpper else P.upperNonAscii s

/-- `Number.MAX_SAFE_INTEGER`, 2^53 - 1. -/
def maxSafeInteger : Nat := 9007199254740991

/-- ToString of the Number that a non-negative integer id is, as the
template literal of a URL applies it: the decimal digits up to
`Number.MAX_SAFE_INTEGER`, the engine's floating point rendering above. -/
def idToString (P : Platform) (id : Nat) : JSString :=
  if id ≤ maxSafeInteger then decimal id else P.integerToString id

/-! ## JSON values and `JSON.parse` -/

/-- A JavaScript value as `JSON.parse` produces it, and `undefined`.  A
number keeps its token; an object keeps its members in source order, a
repeated key included (the last one is the property's value). -/
inductive JSValue where
  | undefined
  | null
  | bool (b : Bool)
  | num (token : JSString)
  | str (s : JSString)
  | arr (items : List JSValue)
  | obj (members : List (JSString × JSValue))

namespace JSON

/-- Why a parse stopped without a value. -/
inductive Failure where
  | syntaxError
  | outOfFuel
  deriving DecidableEq

/-- JSON whitespace: tab, line feed, carriage return, space. -/
def isWhitespace (c : Nat) : Bool := c == 9 || c == 10 || c == 13 || c == 32

/-- Drop leading whitespace. -/
def skipWhitespace : List Nat → List Nat
  | [] => []
  | c :: cs => if isWhitespace c then skipWhitespace cs else c :: cs

/-- A decimal digit. -/
def isDigit (c : Nat) : Bool := 48 ≤ c && c ≤ 57

/-- Value of a hexadecimal digit. -/
def hexValue (c : Nat) : Option Nat :=
  if 48 ≤ c ∧ c ≤ 57 then some (c - 48)
  else if 65 ≤ c ∧ c ≤ 70 then some (c - 55)
  else if 97 ≤ c ∧ c ≤ 102 then some (c - 87)
  else none

/-- The code unit a single-character escape stands for. -/
def escape (c : Nat) : Option Nat :=
  if c = 34 then some 34 else if c = 92 then some 92 else if c = 47 then some 47
  else if c = 98 then some 8 else if c = 102 then some 12 else if c = 110 then some 10
  else if c = 114 then some 13 else if c = 116 then some 9 else none

/-- The rest of a string token after its opening quote: the string's value
and the input after the closing quote. -/
def parseString : List Nat → Option (JSString × List Nat)
  | [] => none
  | c :: rest =>
    if c = 34 then some ([], rest)
    else if c = 92 then
      match rest with
      | [] => none
      | e :: rest1 =>
        if e = 117 then
          match rest1 with
          | h1 :: h2 :: h3 :: h4 :: rest2 =>
            match hexValue h1, hexValue h2, hexValue h3, hexValue h4, parseString rest2 with
            | some a, some b, some c, some d, some (s, r) =>
              some ((a * 4096 + b * 256 + c * 16 + d) :: s, r)
            | _, _, _, _, _ => none
          | _ => none
        else
          match escape e, parseString rest1 with
          | some u, some (s, r) => some (u :: s, r)
          | _, _ => none
    else if c < 32 then none
    else
      match parseString rest with
      | some (s, r) => some (c :: s, r)
      | none => none

/-- A non-empty run of digits after `mark`, when `mark` heads the input. -/
def parseDigitsAfter (mark : Nat → Bool) (signs : Bool) :
    List Nat → Option (JSString × List Nat)
  | [] => some ([], [])
  | c :: rest =>
    if mark c then
      let sign := if signs then (rest.take 1).filter (fun d => d == 43 || d == 45) else []
      let rest1 := rest.drop sign.length
      let digits := rest1.takeWhile isDigit
      if digits = [] then none else some (c :: sign ++ digits, rest1.dropWhile isDigit)
    else some ([], c :: rest)

/-- A number token: optional minus, integer part without a superfluous
leading zero, optional fraction, optional exponent. -/
def parseNumber (input : List Nat) : Option (JSString × List Nat) :=
  let sign := (input.take 1).filter (· == 45)
  match input.drop sign.length with
  | [] => none
  | c :: rest =>
    let int : Option (JSString × List Nat) :=
      if c = 48 then some ([48], rest)
      else if isDigit c then some (c :: rest.takeWhile isDigit, rest.dropWhile isDigit)
      else none
    match int with
    | none => none
    | some (i, rest1) =>
      match parseDigitsAfter (· == 46) false rest1 with
      | none => none
      | some (f, rest2) =>
        match parseDigitsAfter (fun d => d == 101 || d == 69) true rest2 with
        | none => none
        | some (e, rest3) => some (sign ++ i ++ f ++ e, rest3)

mutual
/-- One JSON value, leading whitespace skipped. -/
def parseValue : Nat → List Nat → Except Failure (JSValue × List Nat)
  | 0, _ => .error .outOfFuel
  | fuel + 1, input =>
    match skipWhitespace input with
    | [] => .error .syntaxError
    | c :: rest =>
      if c = 123 then
        match skipWhitespace rest with
        | [] => .error .syntaxError
        | d :: rest1 =>
          if d = 125 then .ok (.obj [], rest1)
          else
            match parseMembers fuel (d :: rest1) with
            | .ok (members, r) => .ok (.obj members, r)
            | .error e => .error e
      else if c = 91 then
        match skipWhitespace rest with
        | [] => .error .syntaxError
        | d :: rest1 =>
          if d = 93 then .ok (.arr [], rest1)
          else
            match parseElements fuel (d :: rest1) with
            | .ok (items, r) => .ok (.arr items, r)
            | .error e => .error e
      else if c = 34 then
        match parseString rest with
        | some (s, r) => .ok (.str s, r)
        | none => .error .syntaxError
      else if (js "true").isPrefixOf (c :: rest) then .ok (.bool true, (c :: rest).drop 4)
      else if (js "false").isPrefixOf (c :: rest) then .ok (.bool false, (c :: rest).drop 5)
      else if (js "null").isPrefixOf (c :: rest) then .ok (.null, (c :: rest).drop 4)
      else
        match parseNumber (c :: rest) with
        | some (token, r) => .ok (.num token, r)
        | none => .error .syntaxError
/-- The elements of a non-empty array, up to and including `]`. -/
def parseElements : Nat → List Nat → Except Failure (List JSValue × List Nat)
  | 0, _ => .error .outOfFuel
  | fuel + 1, input =>
    match parseValue fuel input with
    | .error e => .error e
    | .ok (v, rest) =>
      match skipWhitespace rest with
      | [] => .error .syntaxError
      | c :: rest1 =>
        if c = 44 then
          match parseElements fuel rest1 with
          | .ok (items, r) => .ok (v :: items, r)
          | .error e => .error e
        else if c = 93 then .ok ([v], rest1)
        else .error .syntaxError
/-- The members of a non-empty object, from the first key's opening quote
up to and including the closing brace. -/
def parseMembers : Nat → List Nat → Except Failure (List (JSString × JSValue) × List Nat)
  | 0, _ => .error .outOfFuel
  | fuel + 1, input =>
    match input with
    | [] => .error .syntaxError
    | q :: rest =>
      if q = 34 then
        match parseString rest with
        | none => .error .syntaxError
        | some (key, rest1) =>
          match skipWhitespace rest1 with
          | [] => .error .syntaxError
          | colon :: rest2 =>
            if colon = 58 then
              match parseValue fuel rest2 with
              | .error e => .error e
              | .ok (v, rest3) =>
                match skipWhitespace rest3 with
                | [] => .error .syntaxError
                | c :: rest4 =>
                  if c = 44 then
                    match parseMembers fuel (skipWhitespace rest4) with
                    | .ok (members, r) => .ok ((key, v) :: members, r)
                    | .error e => .error e
                  else if c = 125 then .ok ([(key, v)], rest4)
                  else .error .syntaxError
            else .error .syntaxError
      else .error .syntaxError
end

/-- The built-in `JSON.parse` on a string: the value the text denotes, or
the reason there is none (`syntaxError` is the thrown `SyntaxError`). -/
def parse (text : JSString) : Except Failure JSValue :=
  match parseValue (2 * text.length + 2) text with
  | .error e => .error e
  | .ok (v, rest) => if skipWhitespace rest = [] then .ok v else .error .syntaxError

end JSON

/-- ToBoolean of a value: `undefined`, `null`, `false`, a zero Number and
the empty string are falsy, everything else is truthy. -/
def JSValue.toBoolean (P : Platform) : JSValue → Bool
  | .undefined => false
  | .null => false
  | .bool b => b
  | .num token => P.numberToBoolean token
  | .str s => !s.isEmpty
  | .arr _ => true
  | .obj _ => true

/-- Property read `value.name` for a name that no built-in prototype
defines (such as `message` and `error`): an object yields its last member of
that name, any other value but `null` and `undefined` yields `undefined`,
and `none` stands for the `TypeError` of reading a property of `null` or
`undefined`. -/
def JSValue.getProp : JSValue → JSString → Option JSValue
  | .undefined, _ => none
  | .null, _ => none
  | .obj members, name =>
    match members.reverse.find? (fun kv => kv.1 == name) with
    | some kv => some kv.2
    | none => some .undefined
  | _, _ => some .undefined

/-- ToString of a value, as a template literal applies it; `none` stands
for a thrown `TypeError`.  An array is its elements joined by commas (`null`
and `undefined` elements are empty); an object is `[object Object]` unless a
member named `toString` hides the inherited method, in which case no
primitive can be obtained. -/
def JSValue.toStr (P : Platform) : JSValue → Option JSString
  | .undefined => some (js "undefined")
  | .null => some (js "null")
  | .bool b => some (if b then js "true" else js "false")
  | .num token => some (P.numberToString token)
  | .str s => some s
  | .arr items => join items
  | .obj members =>
    if members.any (fun kv => kv.1 == js "toString") then none
    else some (js "[object Object]")
where
  /-- `Array.prototype.join` with the default separator. -/
  join : List JSValue → Option JSString
    | [] => some []
    | v :: rest =>
      match (match v with
          | .undefined => some []
          | .null => some []
          | _ => JSValue.toStr P v), rest, join rest with
      | some a, [], _ => some a
      | some a, _ :: _, some b => some (a ++ js "," ++ b)
      | _, _, _ => none

/-! ## The script -/

/-- How the promise of an `async` function settles. -/
inductive Settled where
  | fulfilled (value : JSValue)
  | rejected (error : JSError)

/-- Lines 53-70 of `apiFetch`: the message composed for a response that is
not ok, from its status and the body text `errorText`. -/
def apiFetch.errorMessage (P : Platform) (status : Nat) (errorText : JSString) : JSString :=
  let errorMessage := js "HTTP " ++ decimal status
  -- the `catch (e)` of the inner `try`, entered with the message built so far
  let onCatch (errorMessage : JSString) : JSString :=
    if truthy (some errorText) then errorMessage ++ js ": " ++ substring errorText 0 100
    else errorMessage
  match JSON.parse errorText with
  | .error _ => onCatch errorMessage
  | .ok errorJson =>
    match errorJson.getProp (js "message") with
    | none => onCatch errorMessage
    | some message =>
      match (if message.toBoolean P then
          (message.toStr P).map (fun text => errorMessage ++ js ": " ++ text)
        else some errorMessage) with
      | none => onCatch errorMessage
      | some errorMessage =>
        match errorJson.getProp (js "error") with
        | none => onCatch errorMessage
        | some error =>
          match (if error.toBoolean P then
              (error.toStr P).map (fun text => errorMessage ++ js " (" ++ text ++ js ")")
            else some errorMessage) with
          | none => onCatch errorMessage
          | some errorMessage => errorMessage

/-- Lines 21-37 of `apiFetch`: the headers object built from the caller's
headers, the stored token and the method. -/
def apiFetch.headers (P : Platform) (w : Browser) (options : RequestInit) : Headers :=
  let token := w.localStorage.getItem (js "jwt")
  let headers : Headers := options.headers.getD []
  let headers :=
    if truthy token then headers.set (js "Authorization") (js "Bearer " ++ token.getD [])
    else headers
  if truthy options.method &&
      [js "POST", js "PUT", js "PATCH"].contains (toUpperCase P (options.method.getD [])) then
    if !truthy (headers.get (js "Content-Type")) then
      headers.set (js "Content-Type") (js "application/json")
    else headers
  else headers

/-- The `try` block of `apiFetch` (lines 18-87): the value it returns or
the error it throws, and the browser state it leaves. -/
def apiFetch.tryBlock (P : Platform) (w : Browser) (url : JSString) (options : RequestInit) :
    Except JSError JSValue × Browser :=
  let headers := apiFetch.headers P w options
  let fetchOptions : RequestInit := { options with headers := some headers }
  let w := { w with requests := w.requests ++ [(url, fetchOptions)] }
  match P.fetch url fetchOptions with
  | .error e => (.error e, w)
  | .ok response =>
    if !response.ok then
      (.error ⟨js "Error", apiFetch.errorMessage P response.status response.text⟩, w)
    else
      match JSON.parse response.text with
      | .ok result => (.ok result, w)
      | .error _ => (.error (P.syntaxError response.text), w)

/-- The text of the dialog shown by the `catch` block. -/
def reloginPrompt : JSString := js "인증이 만료되었습니다. 다시 로그인하시겠습니까?"

/-- The `catch (error)` block of `apiFetch` (lines 88-102). -/
def apiFetch.catchBlock (P : Platform) (w : Browser) (error : JSError) : Settled × Browser :=
  if includes error.message (js "401") || includes error.message (js "Unauthorized") then
    let w := { w with dialogs := w.dialogs ++ [reloginPrompt] }
    if P.confirm reloginPrompt then
      (.fulfilled .undefined,
        { w with localStorage := w.localStorage.removeItem (js "jwt"),
                 hrefs := w.hrefs ++ [js "/login.html"] })
    else (.rejected error, w)
  else (.rejected error, w)

/-- The function `apiFetch(url, options = {})`: the `try` block, and the
`catch` block on what it throws. -/
def apiFetch (P : Platform) (w : Browser) (url : JSString) (options : RequestInit := {}) :
    Settled × Browser :=
  match apiFetch.tryBlock P w url options with
  | (.ok result, w) => (.fulfilled result, w)
  | (.error error, w) => apiFetch.catchBlock P w error

/-- The function `cancelAppointment(appointmentId, cancelReason = '')`; an
omitted reason is `none`.  A `URIError` thrown while the URL is built
rejects the promise before `apiFetch` is called. -/
def cancelAppointment (P : Platform) (w : Browser) (appointmentId : Nat)
    (cancelReason : Option JSString := none) : Settled × Browser :=
  let cancelReason := cancelReason.getD []
  let query : Option JSString :=
    if truthy (some cancelReason) then
      (encodeURIComponent cancelReason).map (js "?cancelReason=" ++ ·)
    else some []
  match query with
  | none => (.rejected P.uriError, w)
  | some query =>
    let url := js "/api/appointments/" ++ idToString P appointmentId ++ js "/cancel" ++ query
    apiFetch P w url { method := some (js "POST") }

/-- The function `confirmAppointment(appointmentId)`. -/
def confirmAppointment (P : Platform) (w : Browser) (appointmentId : Nat) : Settled × Browser :=
  apiFetch P w (js "/api/appointments/" ++ idToString P appointmentId ++ js "/confirm")
    { method := some (js "POST") }

/-- The function `getParticipants(appointmentId)`. -/
def getParticipants (P : Platform) (w : Browser) (appointmentId : Nat) : Settled × Browser :=
  apiFetch P w (js "/api/appointments/" ++ idToString P appointmentId ++ js "/participants")
    { method := some (js "GET") }

/-- The function `resendNotifications(appointmentId, participantIds)`; the
body is `JSON.stringify` of the array of ids. -/
def resendNotifications (P : Platform) (w : Browser) (appointmentId : Nat)
    (participantIds : List Nat) : Settled × Browser :=
  apiFetch P w (js "/api/appointments/" ++ idToString P appointmentId ++ js "/notify/resend")
    { method := some (js "POST"),
      body := some (js "[" ++ (js ",").intercalate (participantIds.map (idToString P)) ++ js "]") }

/-- The function `isLoggedIn()`. -/
def isLoggedIn (w : Browser) : Bool :=
  let token := w.localStorage.getItem (js "jwt")
  truthy token

/-- The function `logout()`. -/
def logout (w : Browser) : Browser :=
  { w with localStorage := w.localStorage.removeItem (js "jwt"),
           hrefs := w.hrefs ++ [js "/login.html"] }

/-- The function `getToken()`; `none` is `null`. -/
def getToken (w : Browser) : Option JSString :=
  w.localStorage.getItem (js "jwt")

/-- The `DOMContentLoaded` listener (lines 206-215), run on a page whose
`location.pathname` is `currentPath`. -/
def onDOMContentLoaded (w : Browser) (currentPath : JSString) : Browser :=
  let publicPaths := [js "/login.html", js "/login-done.html", js "/"]
  if !publicPaths.contains currentPath && !isLoggedIn w then
    { w with hrefs := w.hrefs ++ [js "/login.html"] }
  else w

/-! ## Concrete surroundings used to instantiate the theorems -/

/-- A platform whose server answers every request with the given status and
body and whose user gives the given answer to `confirm`.  Its engine-defined
fields are stand-ins: the instances below use none of them but
`integerToString` at 10^21 and the two error objects. -/
def server (status : Nat) (body : JSString) (answer : Bool) : Platform where
  fetch := fun _ _ => .ok ⟨status, body⟩
  confirm := fun _ => answer
  upperNonAscii := id
  numberToString := id
  numberToBoolean := fun token => token.any fun c => 49 ≤ c && c ≤ 57
  integerToString := fun n => if n = 10 ^ 21 then js "1e+21" else decimal n
  syntaxError := fun _ => ⟨js "SyntaxError", js "Unexpected token"⟩
  uriError := ⟨js "URIError", js "URI malformed"⟩

/-- A platform without network: `fetch` rejects with the given message. -/
def offline (message : JSString) (answer : Bool) : Platform where
  fetch := fun _ _ => .error ⟨js "TypeError", message⟩
  confirm := fun _ => answer
  upperNonAscii := id
  numberToString := id
  numberToBoolean := fun token => token.any fun c => 49 ≤ c && c ≤ 57
  integerToString := fun n => if n = 10 ^ 21 then js "1e+21" else decimal n
  syntaxError := fun _ => ⟨js "SyntaxError", js "Unexpected token"⟩
  uriError := ⟨js "URIError", js "URI malformed"⟩

/-- A browser whose storage holds `token` under `jwt`. -/
def loggedIn (token : JSString) : Browser :=
  { localStorage := Storage.setItem [] (js "jwt") token }

/-! ## The model of the built-ins on sample inputs -/

theorem js_samples :
    js "jwt" = [106, 119, 116] ∧ js "é" = [233] ∧ js "😀" = [55357, 56832] ∧
    decimal 0 = js "0" ∧ decimal 404 = js "404" := by
  decide

theorem idToString_samples :
    idToString (server 200 [] false) 5 = js "5" ∧
    idToString (server 200 [] false) maxSafeInteger = js "9007199254740991" ∧
    idToString (server 200 [] false) (10 ^ 21) = js "1e+21" ∧
    decimal (10 ^ 21) = js "1000000000000000000000" := by
  decide

theorem includes_samples :
    includes (js "HTTP 401") (js "401") = true ∧
    includes (js "HTTP 400: Unauthorized") (js "Unauthorized") = true ∧
    includes (js "HTTP 40") (js "401") = false ∧
    includes (js "") (js "") = true ∧
    substring (js "abcdef") 0 4 = js "abcd" ∧ substring (js "ab") 0 100 = js "ab" := by
  decide

theorem encodeURIComponent_samples :
    encodeURIComponent (js "no longer needed") = some (js "no%20longer%20needed") ∧
    encodeURIComponent (js "a-b_c.d!e~f*g(h)") = some (js "a-b_c.d!e~f*g(h)") ∧
    encodeURIComponent (js "a/b?c=d&e") = some (js "a%2Fb%3Fc%3Dd%26e") ∧
    encodeURIComponent (js "한 é😀") = some (js "%ED%95%9C%20%C3%A9%F0%9F%98%80") ∧
    encodeURIComponent [55357] = none ∧ encodeURIComponent [56832, 55357] = none ∧
    isWellFormed (js "한 é😀") = true ∧ isWellFormed [97, 56832] = false := by
  decide

theorem JSON.parse_samples :
    JSON.parse (js " \x7b \"a\" : [1, -2.5e+3, \"x\\u0041\\n\", null, true], \"b\" : \x7b\x7d \x7d ") =
      .ok (.obj [(js "a", .arr [.num (js "1"), .num (js "-2.5e+3"), .str (js "xA\n"), .null,
        .bool true]), (js "b", .obj [])]) ∧
    JSON.parse (js "\"oops\"") = .ok (.str (js "oops")) ∧
    JSON.parse (js "oops") = .error .syntaxError ∧
    JSON.parse (js "") = .error .syntaxError ∧
    JSON.parse (js "[1,]") = .error .syntaxError ∧
    JSON.parse (js "\x7b\"a\":1,\x7d") = .error .syntaxError ∧
    JSON.parse (js "01") = .error .syntaxError ∧
    JSON.parse (js "1.") = .error .syntaxError ∧
    JSON.parse (js "nulL") = .error .syntaxError ∧
    JSON.parse (js "null null") = .error .syntaxError ∧
    JSON.parse (js "\"a\tb\"") = .error .syntaxError := by
  refine ⟨?_, ?_, ?_, ?_, ?_, ?_, ?_, ?_, ?_, ?_, ?_⟩ <;> rfl

theorem apiFetch.errorMessage_samples (P : Platform) :
    apiFetch.errorMessage P 500 (js "null") = js "HTTP 500: null" ∧
    apiFetch.errorMessage P 500 (js "[]") = js "HTTP 500" ∧
    apiFetch.errorMessage P 400 (js "\x7b\"error\":\"E1\"\x7d") = js "HTTP 400 (E1)" ∧
    apiFetch.errorMessage P 400 (js "\x7b\"message\":[\"a\",null,[\"b\"],\x7b\x7d]\x7d") =
      js "HTTP 400: a,,b,[object Object]" ∧
    apiFetch.errorMessage P 400 (js "\x7b\"message\":\"m\",\"error\":\x7b\"toString\":1\x7d\x7d") =
      js "HTTP 400: m: \x7b\"message\":\"m\",\"error\":\x7b\"toString\":1\x7d\x7d" := by
  refine ⟨?_, ?_, ?_, ?_, ?_⟩ <;> rfl

/-! ## Lemmas on strings, headers and storage -/

theorem includes_iff_occurs (s search : JSString) :
    includes s search = true ↔ search <:+: s := by
  induction s with
  | nil => simp [includes, List.isEmpty_iff]
  | cons c cs ih =>
    simp only [includes, Bool.or_eq_true, ih, List.infix_cons_iff, List.isPrefixOf_iff_prefix]

theorem includes_append_left (a b search : JSString) (h : includes a search = true) :
    includes (a ++ b) search = true := by
  rw [includes_iff_occurs] at h ⊢
  exact h.trans (List.infix_append' [] a b)

theorem Headers.get_set_self (h : Headers) (name value : JSString) :
    (h.set name value).get name = some value := by
  induction h with
  | nil => simp [Headers.set, Headers.get]
  | cons kv rest ih =>
    obtain ⟨k, v⟩ := kv
    by_cases hk : k = name
    · simp [Headers.set, Headers.get, hk]
    · simp [Headers.set, Headers.get, hk, ih]

theorem Headers.get_set_of_ne (h : Headers) (name other value : JSString) (hne : name ≠ other) :
    (h.set name value).get other = h.get other := by
  induction h with
  | nil => simp [Headers.set, Headers.get, hne]
  | cons kv rest ih =>
    obtain ⟨k, v⟩ := kv
    by_cases hk : k = name
    · subst hk
      simp [Headers.set, Headers.get, hne]
    · by_cases ho : k = other
      · subst ho
        simp [Headers.set, Headers.get, hk]
      · simp [Headers.set, Headers.get, hk, ho, ih]

theorem Storage.getItem_removeItem (s : Storage) (key : JSString) :
    (s.removeItem key).getItem key = none := by
  induction s with
  | nil => rfl
  | cons kv rest ih =>
    obtain ⟨k, v⟩ := kv
    by_cases hk : k = key
    · simpa [Storage.removeItem, List.filter_cons, hk] using ih
    · simpa [Storage.removeItem, List.filter_cons, hk, Storage.getItem] using ih

theorem Storage.getItem_setItem (s : Storage) (key value : JSString) :
    (s.setItem key value).getItem key = some value := by
  simp [Storage.setItem, Storage.getItem]

theorem truthy_eq_true_iff (v : Option JSString) :
    truthy v = true ↔ ∃ c, v = some c ∧ c ≠ [] := by
  cases v with
  | none => simp [truthy]
  | some c => cases c <;> simp [truthy]

/-! ## `JSON.parse` never runs out of fuel -/

theorem JSON.skipWhitespace_length_le (input : List Nat) :
    (JSON.skipWhitespace input).length ≤ input.length := by
  induction input with
  | nil => simp [JSON.skipWhitespace]
  | cons c cs ih =>
    rw [JSON.skipWhitespace]
    split_ifs
    · simp only [List.length_cons]; omega
    · exact le_refl _

theorem JSON.length_of_skipWhitespace_eq (input rest : List Nat) (c : Nat)
    (h : JSON.skipWhitespace input = c :: rest) : rest.length + 1 ≤ input.length := by
  have := JSON.skipWhitespace_length_le input
  rw [h] at this
  simpa using this

theorem JSON.parseString_length_le (n : Nat) :
    ∀ (input : List Nat) (s : JSString) (rest : List Nat), input.length ≤ n →
      JSON.parseString input = some (s, rest) → rest.length ≤ input.length := by
  induction n with
  | zero =>
    intro input s rest hn h
    cases input with
    | nil => simp [JSON.parseString] at h
    | cons c cs => simp at hn
  | succ n ih =>
    intro input s rest hn h
    cases input with
    | nil => simp [JSON.parseString] at h
    | cons c cs =>
      unfold JSON.parseString at h
      simp only [List.length_cons] at hn ⊢
      split_ifs at h
      · simp only [Option.some.injEq, Prod.mk.injEq] at h
        rw [← h.2]
        omega
      · split at h
        · cases h
        · split_ifs at h
          · split at h
            · split at h
              · next heq =>
                have := ih _ _ _ (by simp only [List.length_cons] at hn; omega) heq
                simp only [Option.some.injEq, Prod.mk.injEq] at h
                rw [← h.2]
                simp only [List.length_cons]
                omega
              · cases h
            · cases h
          · split at h
            · next heq =>
              have := ih _ _ _ (by simp only [List.length_cons] at hn; omega) heq
              simp only [Option.some.injEq, Prod.mk.injEq] at h
              rw [← h.2]
              simp only [List.length_cons]
              omega
            · cases h
      · split at h
        · next heq =>
          have := ih _ _ _ (by omega) heq
          simp only [Option.some.injEq, Prod.mk.injEq] at h
          rw [← h.2]
          omega
        · cases h

theorem JSON.parseDigitsAfter_length_le (mark : Nat → Bool) (signs : Bool) (input : List Nat)
    (token : JSString) (rest : List Nat)
    (h : JSON.parseDigitsAfter mark signs input = some (token, rest)) :
    rest.length ≤ input.length := by
  cases input with
  | nil =>
    simp only [JSON.parseDigitsAfter, Option.some.injEq, Prod.mk.injEq] at h
    rw [← h.2]
  | cons c cs =>
    have hk : ∀ k, ((cs.drop k).dropWhile JSON.isDigit).length ≤ cs.length := by
      intro k
      have h1 := (List.dropWhile_suffix JSON.isDigit (l := cs.drop k)).length_le
      have h2 := List.length_drop k cs
      omega
    simp only [JSON.parseDigitsAfter] at h
    split_ifs at h <;>
      (simp only [Option.some.injEq, Prod.mk.injEq] at h
       rw [← h.2]
       try exact Nat.le_succ_of_le (hk _))

theorem JSON.parseNumber_length_le (input : List Nat) (token : JSString) (rest : List Nat)
    (h : JSON.parseNumber input = some (token, rest)) : rest.length ≤ input.length := by
  unfold JSON.parseNumber at h
  dsimp only at h
  have hdrop := List.length_drop (List.filter (fun x => x == 45) (List.take 1 input)).length input
  split at h
  · cases h
  · next c rest0 heq =>
    rw [heq] at hdrop
    simp only [List.length_cons] at hdrop
    split at h
    · cases h
    · next i rest1 hint =>
      have h1 : rest1.length ≤ rest0.length := by
        split_ifs at hint
        · simp only [Option.some.injEq, Prod.mk.injEq] at hint
          rw [← hint.2]
        · simp only [Option.some.injEq, Prod.mk.injEq] at hint
          rw [← hint.2]
          exact (List.dropWhile_suffix _).length_le
      split at h
      · cases h
      · next f rest2 hf =>
        have h2 := JSON.parseDigitsAfter_length_le _ _ _ _ _ hf
        split at h
        · cases h
        · next e rest3 he =>
          have h3 := JSON.parseDigitsAfter_length_le _ _ _ _ _ he
          simp only [Option.some.injEq, Prod.mk.injEq] at h
          rw [← h.2]
          omega

theorem JSON.parse_rest_length_le (fuel : Nat) :
    (∀ input v rest, JSON.parseValue fuel input = .ok (v, rest) →
      rest.length ≤ input.length) ∧
    (∀ input items rest, JSON.parseElements fuel input = .ok (items, rest) →
      rest.length ≤ input.length) ∧
    (∀ input members rest, JSON.parseMembers fuel input = .ok (members, rest) →
      rest.length ≤ input.length) := by
  induction fuel with
  | zero =>
    refine ⟨?_, ?_, ?_⟩ <;> intro input _ _ h
    · simp [JSON.parseValue] at h
    · simp [JSON.parseElements] at h
    · simp [JSON.parseMembers] at h
  | succ n ih =>
    obtain ⟨ihV, ihE, ihM⟩ := ih
    refine ⟨?_, ?_, ?_⟩
    · intro input v rest h
      rw [JSON.parseValue] at h
      split at h
      · cases h
      · next c rest0 hws =>
        have h0 := JSON.length_of_skipWhitespace_eq _ _ _ hws
        split_ifs at h
        · split at h
          · cases h
          · next d rest1 hws1 =>
            have h1 := JSON.length_of_skipWhitespace_eq _ _ _ hws1
            split_ifs at h
            · simp only [Except.ok.injEq, Prod.mk.injEq] at h
              rw [← h.2]
              omega
            · split at h
              · next members r hm =>
                have h2 := ihM _ _ _ hm
                simp only [Except.ok.injEq, Prod.mk.injEq] at h
                simp only [List.length_cons] at h2
                rw [← h.2]
                omega
              · cases h
        · split at h
          · cases h
          · next d rest1 hws1 =>
            have h1 := JSON.length_of_skipWhitespace_eq _ _ _ hws1
            split_ifs at h
            · simp only [Except.ok.injEq, Prod.mk.injEq] at h
              rw [← h.2]
              omega
            · split at h
              · next items r hm =>
                have h2 := ihE _ _ _ hm
                simp only [Except.ok.injEq, Prod.mk.injEq] at h
                simp only [List.length_cons] at h2
                rw [← h.2]
                omega
              · cases h
        · split at h
          · next s r hs =>
            have h2 := JSON.parseString_length_le _ _ _ _ (le_refl _) hs
            simp only [Except.ok.injEq, Prod.mk.injEq] at h
            rw [← h.2]
            omega
          · cases h
        · simp only [Except.ok.injEq, Prod.mk.injEq] at h
          rw [← h.2]
          simp only [List.length_drop, List.length_cons]
          omega
        · simp only [Except.ok.injEq, Prod.mk.injEq] at h
          rw [← h.2]
          simp only [List.length_drop, List.length_cons]
          omega
        · simp only [Except.ok.injEq, Prod.mk.injEq] at h
          rw [← h.2]
          simp only [List.length_drop, List.length_cons]
          omega
        · split at h
          · next token r hnum =>
            have h2 := JSON.parseNumber_length_le _ _ _ hnum
            simp only [Except.ok.injEq, Prod.mk.injEq] at h
            simp only [List.length_cons] at h2
            rw [← h.2]
            omega
          · cases h
    · intro input items rest h
      rw [JSON.parseElements] at h
      split at h
      · cases h
      · next v rest0 hv =>
        have h0 := ihV _ _ _ hv
        split at h
        · cases h
        · next c rest1 hws =>
          have h1 := JSON.length_of_skipWhitespace_eq _ _ _ hws
          split_ifs at h
          · split at h
            · next items1 r hi =>
              have h2 := ihE _ _ _ hi
              simp only [Except.ok.injEq, Prod.mk.injEq] at h
              rw [← h.2]
              omega
            · cases h
          · simp only [Except.ok.injEq, Prod.mk.injEq] at h
            rw [← h.2]
            omega
    · intro input members rest h
      cases input with
      | nil => simp [JSON.parseMembers] at h
      | cons q rest0 =>
        rw [JSON.parseMembers] at h
        split_ifs at h
        split at h
        · cases h
        · next key rest1 hkey =>
          have h0 := JSON.parseString_length_le _ _ _ _ (le_refl _) hkey
          split at h
          · cases h
          · next colon rest2 hws =>
            have h1 := JSON.length_of_skipWhitespace_eq _ _ _ hws
            split_ifs at h
            split at h
            · cases h
            · next v rest3 hv =>
              have h2 := ihV _ _ _ hv
              split at h
              · cases h
              · next c rest4 hws4 =>
                have h3 := JSON.length_of_skipWhitespace_eq _ _ _ hws4
                split_ifs at h
                · split at h
                  · next members1 r hm =>
                    have h4 := ihM _ _ _ hm
                    have h5 := JSON.skipWhitespace_length_le rest4
                    simp only [Except.ok.injEq, Prod.mk.injEq] at h
                    rw [← h.2]
                    simp only [List.length_cons]
                    omega
                  · cases h
                · simp only [Except.ok.injEq, Prod.mk.injEq] at h
                  rw [← h.2]
                  simp only [List.length_cons]
                  omega

theorem JSON.parse_fuel_suffices (fuel : Nat) :
    (∀ input, 2 * input.length + 1 ≤ fuel →
      JSON.parseValue fuel input ≠ .error .outOfFuel) ∧
    (∀ input, 2 * input.length + 2 ≤ fuel →
      JSON.parseElements fuel input ≠ .error .outOfFuel) ∧
    (∀ input, 2 * input.length + 1 ≤ fuel →
      JSON.parseMembers fuel input ≠ .error .outOfFuel) := by
  induction fuel with
  | zero =>
    refine ⟨?_, ?_, ?_⟩ <;> intro input hfuel <;> omega
  | succ n ih =>
    obtain ⟨ihV, ihE, ihM⟩ := ih
    obtain ⟨lenV, -, -⟩ := JSON.parse_rest_length_le n
    refine ⟨?_, ?_, ?_⟩
    · intro input hfuel h
      rw [JSON.parseValue] at h
      split at h
      · cases h
      · next c rest0 hws =>
        have h0 := JSON.length_of_skipWhitespace_eq _ _ _ hws
        split_ifs at h <;> try cases h
        · split at h
          · cases h
          · next d rest1 hws1 =>
            have h1 := JSON.length_of_skipWhitespace_eq _ _ _ hws1
            split_ifs at h
            split at h
            · cases h
            · next e hm =>
              simp only [Except.error.injEq] at h
              subst h
              exact ihM _ (by simp only [List.length_cons]; omega) hm
        · split at h
          · cases h
          · next d rest1 hws1 =>
            have h1 := JSON.length_of_skipWhitespace_eq _ _ _ hws1
            split_ifs at h
            split at h
            · cases h
            · next e hm =>
              simp only [Except.error.injEq] at h
              subst h
              exact ihE _ (by simp only [List.length_cons]; omega) hm
        · split at h <;> cases h
        · split at h <;> cases h
    · intro input hfuel h
      rw [JSON.parseElements] at h
      split at h
      · next e hv =>
        simp only [Except.error.injEq] at h
        subst h
        exact ihV _ (by omega) hv
      · next v rest0 hv =>
        have h0 := lenV _ _ _ hv
        split at h
        · cases h
        · next c rest1 hws =>
          have h1 := JSON.length_of_skipWhitespace_eq _ _ _ hws
          split_ifs at h <;> try cases h
          split at h
          · cases h
          · next e hi =>
            simp only [Except.error.injEq] at h
            subst h
            exact ihE _ (by omega) hi
    · intro input hfuel h
      cases input with
      | nil => simp [JSON.parseMembers] at h
      | cons q rest0 =>
        rw [JSON.parseMembers] at h
        simp only [List.length_cons] at hfuel
        split_ifs at h <;> try cases h
        split at h
        · cases h
        · next key rest1 hkey =>
          have h0 := JSON.parseString_length_le _ _ _ _ (le_refl _) hkey
          split at h
          · cases h
          · next colon rest2 hws =>
            have h1 := JSON.length_of_skipWhitespace_eq _ _ _ hws
            split_ifs at h <;> try cases h
            split at h
            · next e hv =>
              simp only [Except.error.injEq] at h
              subst h
              exact ihV _ (by omega) hv
            · next v rest3 hv =>
              have h2 := lenV _ _ _ hv
              split at h
              · cases h
              · next c rest4 hws4 =>
                have h3 := JSON.length_of_skipWhitespace_eq _ _ _ hws4
                split_ifs at h <;> try cases h
                split at h
                · cases h
                · next e hm =>
                  have h5 := JSON.skipWhitespace_length_le rest4
                  simp only [Except.error.injEq] at h
                  subst h
                  exact ihM _ (by omega) hm

/-- The fuel given by `JSON.parse` is enough: a failed parse is a syntax
error of the text. -/
theorem JSON.parse_ne_outOfFuel (text : JSString) : JSON.parse text ≠ .error .outOfFuel := by
  intro h
  unfold JSON.parse at h
  split at h
  · next e hv =>
    simp only [Except.error.injEq] at h
    subst h
    exact (JSON.parse_fuel_suffices _).1 text (by omega) hv
  · split_ifs at h
    cases h

theorem JSON.parse_eq_syntaxError_iff (text : JSString) :
    JSON.parse text = .error .syntaxError ↔ ∀ v, JSON.parse text ≠ .ok v := by
  constructor
  · intro h v hv
    rw [h] at hv
    cases hv
  · intro h
    cases hp : JSON.parse text with
    | ok v => exact absurd hp (h v)
    | error e =>
      cases e with
      | syntaxError => rfl
      | outOfFuel => exact absurd hp (JSON.parse_ne_outOfFuel text)

/-! ## Lemmas on `apiFetch` -/

theorem apiFetch.tryBlock_browser (P : Platform) (w : Browser) (url : JSString)
    (options : RequestInit) :
    (apiFetch.tryBlock P w url options).2 =
      { w with requests := w.requests ++
          [(url, { options with headers := some (apiFetch.headers P w options) })] } := by
  unfold apiFetch.tryBlock
  dsimp only
  split
  · rfl
  · split
    · rfl
    · split <;> rfl

theorem apiFetch.catchBlock_requests (P : Platform) (w : Browser) (error : JSError) :
    (apiFetch.catchBlock P w error).2.requests = w.requests := by
  unfold apiFetch.catchBlock
  dsimp only
  split
  · split <;> rfl
  · rfl

theorem apiFetch_requests (P : Platform) (w : Browser) (url : JSString)
    (options : RequestInit) :
    (apiFetch P w url options).2.requests = w.requests ++
      [(url, { options with headers := some (apiFetch.headers P w options) })] := by
  have hb := apiFetch.tryBlock_browser P w url options
  unfold apiFetch
  split
  · next result w1 heq =>
    rw [heq] at hb
    dsimp only at hb ⊢
    rw [hb]
  · next error w1 heq =>
    rw [heq] at hb
    dsimp only at hb
    rw [apiFetch.catchBlock_requests, hb]

theorem apiFetch.headers_authorization (P : Platform) (w : Browser) (options : RequestInit) :
    (apiFetch.headers P w options).get (js "Authorization") =
      if truthy (w.localStorage.getItem (js "jwt")) then
        some (js "Bearer " ++ (w.localStorage.getItem (js "jwt")).getD [])
      else (options.headers.getD []).get (js "Authorization") := by
  have hne : js "Content-Type" ≠ js "Authorization" := by decide
  unfold apiFetch.headers
  dsimp only
  split_ifs <;> simp [Headers.get_set_of_ne _ _ _ _ hne, Headers.get_set_self]

theorem apiFetch.headers_contentType (P : Platform) (w : Browser) (options : RequestInit)
    (method : JSString)
    (hmethod : options.method = some method)
    (hwrite : method = js "POST" ∨ method = js "PUT" ∨ method = js "PATCH") :
    (apiFetch.headers P w options).get (js "Content-Type") =
      if truthy ((options.headers.getD []).get (js "Content-Type")) then
        (options.headers.getD []).get (js "Content-Type")
      else some (js "application/json") := by
  have hne : js "Authorization" ≠ js "Content-Type" := by decide
  have hcond : (truthy options.method &&
      [js "POST", js "PUT", js "PATCH"].contains (toUpperCase P (options.method.getD []))) = true := by
    rw [hmethod]
    rcases hwrite with h | h | h <;> subst h <;> rfl
  unfold apiFetch.headers
  dsimp only
  rw [if_pos hcond]
  split_ifs <;> simp_all [Headers.get_set_of_ne _ _ _ _ hne, Headers.get_set_self]

theorem apiFetch.tryBlock_of_response (P : Platform) (w : Browser) (url : JSString)
    (options : RequestInit) (status : Nat) (body : JSString)
    (hfetch : P.fetch url { options with headers := some (apiFetch.headers P w options) } =
      .ok ⟨status, body⟩) :
    (apiFetch.tryBlock P w url options).1 =
      if 200 ≤ status ∧ status ≤ 299 then
        match JSON.parse body with
        | .ok result => .ok result
        | .error _ => .error (P.syntaxError body)
      else .error ⟨js "Error", apiFetch.errorMessage P status body⟩ := by
  unfold apiFetch.tryBlock
  dsimp only
  rw [hfetch]
  dsimp only
  by_cases hok : 200 ≤ status ∧ status ≤ 299
  · have hb : Response.ok ⟨status, body⟩ = true := by simp [Response.ok, hok]
    rw [if_pos hok]
    simp only [hb, Bool.not_true, Bool.false_eq_true, if_false]
    split <;> simp_all
  · have hb : Response.ok ⟨status, body⟩ = false := by
      simp only [Response.ok, Bool.and_eq_false_iff, decide_eq_false_iff_not]
      omega
    rw [if_neg hok]
    simp [hb]

theorem apiFetch.tryBlock_of_failure (P : Platform) (w : Browser) (url : JSString)
    (options : RequestInit) (e : JSError)
    (hfetch : P.fetch url { options with headers := some (apiFetch.headers P w options) } =
      .error e) :
    (apiFetch.tryBlock P w url options).1 = .error e := by
  unfold apiFetch.tryBlock
  dsimp only
  rw [hfetch]

theorem apiFetch_of_ok (P : Platform) (w : Browser) (url : JSString) (options : RequestInit)
    (result : JSValue) (h : (apiFetch.tryBlock P w url options).1 = .ok result) :
    apiFetch P w url options = (.fulfilled result,
      { w with requests := w.requests ++
          [(url, { options with headers := some (apiFetch.headers P w options) })] }) := by
  have hb := apiFetch.tryBlock_browser P w url options
  unfold apiFetch
  split
  · next r w1 heq =>
    rw [heq] at hb h
    dsimp only at hb h
    cases h
    rw [hb]
  · next e w1 heq =>
    rw [heq] at h
    cases h

theorem apiFetch_of_error (P : Platform) (w : Browser) (url : JSString) (options : RequestInit)
    (error : JSError) (h : (apiFetch.tryBlock P w url options).1 = .error error) :
    apiFetch P w url options = apiFetch.catchBlock P
      { w with requests := w.requests ++
          [(url, { options with headers := some (apiFetch.headers P w options) })] } error := by
  have hb := apiFetch.tryBlock_browser P w url options
  unfold apiFetch
  split
  · next r w1 heq =>
    rw [heq] at h
    cases h
  · next e w1 heq =>
    rw [heq] at hb h
    dsimp only at hb h
    cases h
    rw [hb]

theorem apiFetch.errorMessage_starts (P : Platform) (status : Nat) (errorText : JSString) :
    ∃ rest, apiFetch.errorMessage P status errorText = js "HTTP " ++ decimal status ++ rest := by
  have hcatch : ∀ m r : JSString, ∃ rest,
      (if truthy (some errorText) = true then
          js "HTTP " ++ decimal status ++ r ++ js ": " ++ substring errorText 0 100
        else js "HTTP " ++ decimal status ++ r) = js "HTTP " ++ decimal status ++ rest := by
    intro _ r
    split_ifs
    · exact ⟨r ++ js ": " ++ substring errorText 0 100, by simp [List.append_assoc]⟩
    · exact ⟨r, rfl⟩
  have hstep : ∀ (v : JSValue) (m m1 : JSString) (g : JSString → JSString),
      (∀ text, ∃ r, g text = m ++ r) →
      (if v.toBoolean P = true then (v.toStr P).map g else some m) = some m1 →
      ∃ r, m1 = m ++ r := by
    intro v m m1 g hg h
    split_ifs at h
    · cases hs : v.toStr P with
      | none => simp [hs] at h
      | some text =>
        simp only [hs, Option.map_some', Option.some.injEq] at h
        obtain ⟨r, hr⟩ := hg text
        exact ⟨r, by rw [← h, hr]⟩
    · simp only [Option.some.injEq] at h
      exact ⟨[], by simp [h]⟩
  have hcatch0 := hcatch [] []
  simp only [List.append_nil] at hcatch0
  unfold apiFetch.errorMessage
  dsimp only
  split
  · exact hcatch0
  · split
    · exact hcatch0
    · split
      · exact hcatch0
      · next m1 hm1 =>
        obtain ⟨r1, hr1⟩ := hstep _ _ _ _
          (fun text => ⟨js ": " ++ text, by simp [List.append_assoc]⟩) hm1
        subst hr1
        split
        · exact hcatch [] r1
        · split
          · exact hcatch [] r1
          · next m2 hm2 =>
            obtain ⟨r2, hr2⟩ := hstep _ _ _ _
              (fun text => ⟨js " (" ++ text ++ js ")", by simp [List.append_assoc]⟩) hm2
            subst hr2
            exact ⟨r1 ++ r2, by simp [List.append_assoc]⟩

theorem apiFetch.errorMessage_of_not_json (P : Platform) (status : Nat) (errorText : JSString)
    (hparse : ∀ v, JSON.parse errorText ≠ .ok v) :
    apiFetch.errorMessage P status errorText =
      if errorText = [] then js "HTTP " ++ decimal status
      else js "HTTP " ++ decimal status ++ js ": " ++ errorText.take 100 := by
  unfold apiFetch.errorMessage
  dsimp only
  split
  · cases errorText <;> simp [truthy, substring]
  · next v hv => exact absurd hv (hparse v)

theorem uriUnescaped_not_surrogate (c : Nat) (h : uriUnescaped c = true) :
    isLeadSurrogate c = false ∧ isTrailSurrogate c = false := by
  simp only [uriUnescaped, Bool.or_eq_true, Bool.and_eq_true, decide_eq_true_eq,
    beq_iff_eq] at h
  simp only [isLeadSurrogate, isTrailSurrogate, Bool.and_eq_false_iff, decide_eq_false_iff_not]
  omega

theorem encodeURIComponent_of_isWellFormed :
    ∀ s : JSString, isWellFormed s = true → ∃ encoded, encodeURIComponent s = some encoded
  | [], _ => ⟨[], rfl⟩
  | [c], h => by
    by_cases hu : uriUnescaped c = true
    · exact ⟨[c], by simp [encodeURIComponent, hu]⟩
    · by_cases hl : isLeadSurrogate c = true
      · simp [isWellFormed, hl] at h
      · by_cases ht : isTrailSurrogate c = true
        · simp [isWellFormed, hl, ht] at h
        · exact ⟨percent (utf8 c), by simp [encodeURIComponent, hu, hl, ht]⟩
  | c :: d :: rest, h => by
    by_cases hu : uriUnescaped c = true
    · obtain ⟨hl, ht⟩ := uriUnescaped_not_surrogate c hu
      have hrest : isWellFormed (d :: rest) = true := by
        rw [isWellFormed] at h
        simpa [hl, ht] using h
      obtain ⟨e, he⟩ := encodeURIComponent_of_isWellFormed (d :: rest) hrest
      exact ⟨c :: e, by rw [encodeURIComponent]; simp [hu, he]⟩
    · by_cases hl : isLeadSurrogate c = true
      · rw [isWellFormed] at h
        simp only [hl, if_true, Bool.and_eq_true] at h
        obtain ⟨e, he⟩ := encodeURIComponent_of_isWellFormed rest h.2
        exact ⟨percent (utf8 ((c - 55296) * 1024 + (d - 56320) + 65536)) ++ e, by
          rw [encodeURIComponent]; simp [hu, hl, h.1, he]⟩
      · rw [isWellFormed] at h
        simp only [hl, Bool.false_eq_true, if_false, Bool.and_eq_true, Bool.not_eq_true'] at h
        obtain ⟨e, he⟩ := encodeURIComponent_of_isWellFormed (d :: rest) h.2
        exact ⟨percent (utf8 c) ++ e, by rw [encodeURIComponent]; simp [hu, hl, h.1, he]⟩

theorem apiFetch_requests_ne_nil (P : Platform) (w : Browser) (url : JSString)
    (options : RequestInit) : (apiFetch P w url options).2.requests ≠ [] := by
  rw [apiFetch_requests]
  simp

/-! ## C1: the Authorization header -/

/-- C1, counterexample: the claim takes every stored credential string to
be sent.  With the empty string stored under `jwt` and no caller headers,
`apiFetch` hands `fetch` a headers object without `Authorization`, not
`Bearer ` followed by the stored string. -/
theorem apiFetch_authorization_empty_credential :
    (loggedIn (js "")).localStorage.getItem (js "jwt") = some (js "") ∧
    (apiFetch (server 200 (js "\x7b\x7d") false) (loggedIn (js "")) (js "/api/x")).2.requests =
      [(js "/api/x", { headers := some [] })] ∧
    (apiFetch.headers (server 200 (js "\x7b\x7d") false) (loggedIn (js "")) {}).get
      (js "Authorization") ≠ some (js "Bearer " ++ js "") := by
  refine ⟨by decide, by rfl, by decide⟩

/-- C1, as amended: `apiFetch` calls `fetch` once, with the caller's url
and the caller's options carrying the merged headers.  For every non-empty
credential string stored under `jwt` the merged `Authorization` is `Bearer `
followed by that credential; when nothing (or the empty string) is stored,
the `Authorization` entry is exactly the caller's, absent if the caller gave
none. -/
theorem apiFetch_authorization (P : Platform) (w : Browser) (url : JSString)
    (options : RequestInit) :
    (apiFetch P w url options).2.requests = w.requests ++
      [(url, { options with headers := some (apiFetch.headers P w options) })] ∧
    (∀ credential, w.localStorage.getItem (js "jwt") = some credential → credential ≠ [] →
      (apiFetch.headers P w options).get (js "Authorization") =
        some (js "Bearer " ++ credential)) ∧
    (w.localStorage.getItem (js "jwt") = none ∨ w.localStorage.getItem (js "jwt") = some [] →
      (apiFetch.headers P w options).get (js "Authorization") =
        (options.headers.getD []).get (js "Authorization")) := by
  refine ⟨apiFetch_requests P w url options, ?_, ?_⟩
  · intro credential hstored hne
    have ht : truthy (w.localStorage.getItem (js "jwt")) = true :=
      (truthy_eq_true_iff _).2 ⟨credential, hstored, hne⟩
    rw [apiFetch.headers_authorization, if_pos ht, hstored]
    rfl
  · intro hstored
    have ht : ¬ truthy (w.localStorage.getItem (js "jwt")) = true := by
      rcases hstored with h | h <;> rw [h] <;> simp [truthy]
    rw [apiFetch.headers_authorization, if_neg ht]

/-- C1, instance: with `tok` stored and a caller-supplied `Authorization`,
the request carries `Bearer tok`; with nothing stored it carries the
caller's value. -/
theorem apiFetch_authorization_witness :
    (loggedIn (js "tok")).localStorage.getItem (js "jwt") = some (js "tok") ∧
    js "tok" ≠ [] ∧
    (apiFetch.headers (server 200 (js "\x7b\x7d") false) (loggedIn (js "tok"))
        { headers := some [(js "Authorization", js "Basic x")] }).get (js "Authorization") =
      some (js "Bearer " ++ js "tok") ∧
    (apiFetch.headers (server 200 (js "\x7b\x7d") false) {}
        { headers := some [(js "Authorization", js "Basic x")] }).get (js "Authorization") =
      some (js "Basic x") :=
  ⟨by decide, by decide,
    (apiFetch_authorization (server 200 (js "\x7b\x7d") false) (loggedIn (js "tok")) (js "/api/x")
      { headers := some [(js "Authorization", js "Basic x")] }).2.1 (js "tok")
      (by decide) (by decide),
    (apiFetch_authorization (server 200 (js "\x7b\x7d") false) {} (js "/api/x")
      { headers := some [(js "Authorization", js "Basic x")] }).2.2 (Or.inl (by decide))⟩

/-! ## C2: the default Content-Type -/

/-- C2, counterexample: the claim takes every caller-supplied Content-Type
value to be kept.  A POST whose caller supplies the empty string as
`Content-Type` goes out with `application/json`. -/
theorem apiFetch_contentType_empty_overwritten :
    (apiFetch.headers (server 200 (js "\x7b\x7d") false) {}
        { method := some (js "POST"), headers := some [(js "Content-Type", js "")] }).get
      (js "Content-Type") = some (js "application/json") ∧
    some (js "application/json") ≠ some (js "") := by
  refine ⟨by rfl, by decide⟩

/-- C2, as amended: for every call whose method is POST, PUT or PATCH,
`fetch` receives the merged headers, in which `Content-Type` is
`application/json` when the caller supplied none (or the empty string), and
is the caller's value for every non-empty caller-supplied value. -/
theorem apiFetch_contentType (P : Platform) (w : Browser) (url : JSString)
    (options : RequestInit) (method : JSString)
    (hmethod : options.method = some method)
    (hwrite : method = js "POST" ∨ method = js "PUT" ∨ method = js "PATCH") :
    (apiFetch P w url options).2.requests = w.requests ++
      [(url, { options with headers := some (apiFetch.headers P w options) })] ∧
    ((options.headers.getD []).get (js "Content-Type") = none ∨
        (options.headers.getD []).get (js "Content-Type") = some [] →
      (apiFetch.headers P w options).get (js "Content-Type") = some (js "application/json")) ∧
    (∀ value, (options.headers.getD []).get (js "Content-Type") = some value → value ≠ [] →
      (apiFetch.headers P w options).get (js "Content-Type") = some value) := by
  refine ⟨apiFetch_requests P w url options, ?_, ?_⟩
  · intro hnone
    have ht : ¬ truthy ((options.headers.getD []).get (js "Content-Type")) = true := by
      rcases hnone with h | h <;> rw [h] <;> simp [truthy]
    rw [apiFetch.headers_contentType P w options method hmethod hwrite, if_neg ht]
  · intro value hvalue hne
    have ht : truthy ((options.headers.getD []).get (js "Content-Type")) = true :=
      (truthy_eq_true_iff _).2 ⟨value, hvalue, hne⟩
    rw [apiFetch.headers_contentType P w options method hmethod hwrite, if_pos ht, hvalue]

/-- C2, instance: a PUT without headers goes out as `application/json`,
a PATCH with `text/plain` keeps `text/plain`. -/
theorem apiFetch_contentType_witness :
    (apiFetch.headers (server 200 (js "\x7b\x7d") false) (loggedIn (js "tok"))
        { method := some (js "PUT") }).get (js "Content-Type") =
      some (js "application/json") ∧
    (apiFetch.headers (server 200 (js "\x7b\x7d") false) (loggedIn (js "tok"))
        { method := some (js "PATCH"), headers := some [(js "Content-Type", js "text/plain")] }).get
      (js "Content-Type") = some (js "text/plain") :=
  ⟨(apiFetch_contentType (server 200 (js "\x7b\x7d") false) (loggedIn (js "tok")) (js "/api/x")
      { method := some (js "PUT") } (js "PUT") rfl (Or.inr (Or.inl rfl))).2.1 (Or.inl (by rfl)),
    (apiFetch_contentType (server 200 (js "\x7b\x7d") false) (loggedIn (js "tok")) (js "/api/x")
      { method := some (js "PATCH"), headers := some [(js "Content-Type", js "text/plain")] }
      (js "PATCH") rfl (Or.inr (Or.inr rfl))).2.2 (js "text/plain") (by rfl) (by decide)⟩

/-! ## C7: `isLoggedIn` and `logout` -/

/-- C7, counterexample: the claim takes `isLoggedIn()` to be true after any
credential string is stored.  After `setItem('jwt', '')` a string is stored
under `jwt` and `isLoggedIn()` is false. -/
theorem isLoggedIn_false_with_empty_credential :
    (loggedIn (js "")).localStorage.getItem (js "jwt") = some (js "") ∧
    isLoggedIn (loggedIn (js "")) = false := by
  refine ⟨by decide, by decide⟩

/-- C7, as amended: `isLoggedIn()` is true exactly when a non-empty string
is stored under `jwt`; it is false right after `logout()`, and true right
after any non-empty credential string is stored. -/
theorem isLoggedIn_iff_nonempty_credential (w : Browser) :
    (isLoggedIn w = true ↔
      ∃ credential, w.localStorage.getItem (js "jwt") = some credential ∧ credential ≠ []) ∧
    isLoggedIn (logout w) = false ∧
    (∀ credential, credential ≠ [] →
      isLoggedIn { w with localStorage := w.localStorage.setItem (js "jwt") credential } = true) := by
  refine ⟨truthy_eq_true_iff _, ?_, ?_⟩
  · simp [isLoggedIn, logout, Storage.getItem_removeItem, truthy]
  · intro credential hne
    simp only [isLoggedIn, Storage.getItem_setItem]
    exact (truthy_eq_true_iff _).2 ⟨credential, rfl, hne⟩

/-- C7, instance: with `tok` stored `isLoggedIn()` is true, and storing
`tok2` over it keeps it true. -/
theorem isLoggedIn_iff_nonempty_credential_witness :
    isLoggedIn (loggedIn (js "tok")) = true ∧
    isLoggedIn { loggedIn (js "tok") with
      localStorage := (loggedIn (js "tok")).localStorage.setItem (js "jwt") (js "tok2") } = true :=
  ⟨(isLoggedIn_iff_nonempty_credential (loggedIn (js "tok"))).1.2 ⟨js "tok", by decide, by decide⟩,
    (isLoggedIn_iff_nonempty_credential (loggedIn (js "tok"))).2.2 (js "tok2") (by decide)⟩

/-! ## C3 and C4: the message composed for a response that is not ok -/

/-- C3, counterexample: the claim appends `: ` and the message field for
every object with a message field.  For status 400 and the body
`{"message":""}`, which is a JSON object with a message field, the composed
message is `HTTP 400`, not `HTTP 400: `. -/
theorem errorMessage_empty_message_field :
    JSON.parse (js "\x7b\"message\":\"\"\x7d") = .ok (.obj [(js "message", .str (js ""))]) ∧
    (apiFetch.tryBlock (server 400 (js "\x7b\"message\":\"\"\x7d") false) {} (js "/api/x") {}).1 =
      .error ⟨js "Error", js "HTTP 400"⟩ ∧
    js "HTTP 400" ≠ js "HTTP " ++ decimal 400 ++ js ": " ++ js "" := by
  refine ⟨by rfl, by rfl, by decide⟩

/-- C3, as amended: for every response whose status `s` is outside 200-299
and whose body parses as a JSON object with a truthy message field (for a
string: a non-empty one) that renders as the text `m`, the error thrown in
`apiFetch` has the message `HTTP s: m`, followed by ` (e)` when the error
field is truthy and renders as `e`, and by nothing when the error field is
absent or falsy; for status 400 and the body
`{"message":"bad input","error":"E1"}` the message is
`HTTP 400: bad input (E1)`. -/
theorem errorMessage_of_json_object (P : Platform) (w : Browser) (url : JSString)
    (options : RequestInit) (status : Nat) (body : JSString)
    (hfetch : P.fetch url { options with headers := some (apiFetch.headers P w options) } =
      .ok ⟨status, body⟩)
    (hstatus : ¬ (200 ≤ status ∧ status ≤ 299)) :
    (∀ members message m, JSON.parse body = .ok (.obj members) →
      (JSValue.obj members).getProp (js "message") = some message →
      message.toBoolean P = true → message.toStr P = some m →
      (∀ error e, (JSValue.obj members).getProp (js "error") = some error →
        error.toBoolean P = true → error.toStr P = some e →
        (apiFetch.tryBlock P w url options).1 = .error ⟨js "Error",
          js "HTTP " ++ decimal status ++ js ": " ++ m ++ js " (" ++ e ++ js ")"⟩) ∧
      (∀ error, (JSValue.obj members).getProp (js "error") = some error →
        error.toBoolean P = false →
        (apiFetch.tryBlock P w url options).1 = .error ⟨js "Error",
          js "HTTP " ++ decimal status ++ js ": " ++ m⟩)) ∧
    (status = 400 → body = js "\x7b\"message\":\"bad input\",\"error\":\"E1\"\x7d" →
      (apiFetch.tryBlock P w url options).1 =
        .error ⟨js "Error", js "HTTP 400: bad input (E1)"⟩) := by
  have htry := apiFetch.tryBlock_of_response P w url options status body hfetch
  rw [if_neg hstatus] at htry
  refine ⟨?_, ?_⟩
  · intro members message m hparse hmsg hmt hms
    refine ⟨?_, ?_⟩
    · intro error e herr het hes
      rw [htry]
      unfold apiFetch.errorMessage
      simp [hparse, hmsg, herr, hmt, hms, het, hes]
    · intro error herr hef
      rw [htry]
      unfold apiFetch.errorMessage
      simp [hparse, hmsg, herr, hmt, hms, hef]
  · intro hs hb
    subst hs hb
    rw [htry]
    rfl

/-- C3, instance: status 422 with the body `{"message":"taken","error":"E7"}`
gives `HTTP 422: taken (E7)`, and with the body `{"message":"taken"}` it
gives `HTTP 422: taken`. -/
theorem errorMessage_of_json_object_witness :
    (apiFetch.tryBlock (server 422 (js "\x7b\"message\":\"taken\",\"error\":\"E7\"\x7d") false) {}
        (js "/api/x") {}).1 =
      .error ⟨js "Error", js "HTTP " ++ decimal 422 ++ js ": " ++ js "taken" ++ js " (" ++
        js "E7" ++ js ")"⟩ ∧
    (apiFetch.tryBlock (server 422 (js "\x7b\"message\":\"taken\"\x7d") false) {}
        (js "/api/x") {}).1 =
      .error ⟨js "Error", js "HTTP " ++ decimal 422 ++ js ": " ++ js "taken"⟩ :=
  ⟨((errorMessage_of_json_object
        (server 422 (js "\x7b\"message\":\"taken\",\"error\":\"E7\"\x7d") false)
        {} (js "/api/x") {} 422 (js "\x7b\"message\":\"taken\",\"error\":\"E7\"\x7d") (by rfl)
        (by decide)).1
      [(js "message", .str (js "taken")), (js "error", .str (js "E7"))] (.str (js "taken"))
      (js "taken") (by rfl) (by rfl) (by rfl) (by rfl)).1
      (.str (js "E7")) (js "E7") (by rfl) (by rfl) (by rfl),
    ((errorMessage_of_json_object (server 422 (js "\x7b\"message\":\"taken\"\x7d") false)
        {} (js "/api/x") {} 422 (js "\x7b\"message\":\"taken\"\x7d") (by rfl) (by decide)).1
      [(js "message", .str (js "taken"))] (.str (js "taken"))
      (js "taken") (by rfl) (by rfl) (by rfl) (by rfl)).2
      .undefined (by rfl) (by rfl)⟩

/-- C4: for every response whose status `s` is outside 200-299 and whose
body does not parse as JSON, the error thrown in `apiFetch` has the message
`HTTP s: ` followed by the first 100 code units of the body when the body is
non-empty, so it is at most 100 code units longer than `HTTP s: `, and
exactly `HTTP s` when the body is empty; for status 500 and the body `oops`
the message is `HTTP 500: oops`. -/
theorem errorMessage_of_non_json (P : Platform) (w : Browser) (url : JSString)
    (options : RequestInit) (status : Nat) (body : JSString)
    (hfetch : P.fetch url { options with headers := some (apiFetch.headers P w options) } =
      .ok ⟨status, body⟩)
    (hstatus : ¬ (200 ≤ status ∧ status ≤ 299)) :
    ((∀ v, JSON.parse body ≠ .ok v) →
      (body ≠ [] → (apiFetch.tryBlock P w url options).1 = .error ⟨js "Error",
        js "HTTP " ++ decimal status ++ js ": " ++ body.take 100⟩) ∧
      (body = [] → (apiFetch.tryBlock P w url options).1 = .error ⟨js "Error",
        js "HTTP " ++ decimal status⟩) ∧
      (∀ error, (apiFetch.tryBlock P w url options).1 = .error error →
        error.message.length ≤ (js "HTTP " ++ decimal status ++ js ": ").length + 100)) ∧
    (status = 500 → body = js "oops" →
      (apiFetch.tryBlock P w url options).1 = .error ⟨js "Error", js "HTTP 500: oops"⟩) := by
  have htry := apiFetch.tryBlock_of_response P w url options status body hfetch
  rw [if_neg hstatus] at htry
  refine ⟨?_, ?_⟩
  · intro hparse
    have hmsg := apiFetch.errorMessage_of_not_json P status body hparse
    refine ⟨?_, ?_, ?_⟩
    · intro hne
      rw [htry, hmsg, if_neg hne]
    · intro hempty
      rw [htry, hmsg, if_pos hempty]
    · intro error herror
      rw [htry] at herror
      cases herror
      rw [hmsg]
      split_ifs
      · simp only [List.length_append]
        omega
      · simp only [List.length_append, List.length_take]
        omega
  · intro hs hb
    subst hs hb
    rw [htry]
    rfl

/-- C4, instance: status 503 with the body `<html>` gives `HTTP 503: <html>`. -/
theorem errorMessage_of_non_json_witness :
    (apiFetch.tryBlock (server 503 (js "<html>") false) {} (js "/api/x") {}).1 =
      .error ⟨js "Error", js "HTTP " ++ decimal 503 ++ js ": " ++ (js "<html>").take 100⟩ :=
  ((errorMessage_of_non_json (server 503 (js "<html>") false) {} (js "/api/x") {} 503
      (js "<html>") (by rfl) (by decide)).1
    (fun v h => by
      have h1 : JSON.parse (js "<html>") = .error .syntaxError := by rfl
      rw [h1] at h
      cases h)).1 (by decide)

/-! ## C5 and C6: the `catch` block -/

/-- C5: for every error thrown in the `try` block of `apiFetch` (a rejected
`fetch`, the constructed HTTP error, a body that fails to parse): if its
message contains neither `401` nor `Unauthorized`, or the user declines the
dialog, then `apiFetch` rejects with that very error, `localStorage` is as
before and nothing is assigned to `location.href`. -/
theorem apiFetch_rethrows (P : Platform) (w : Browser) (url : JSString)
    (options : RequestInit) (error : JSError)
    (hthrown : (apiFetch.tryBlock P w url options).1 = .error error)
    (hkeep : (includes error.message (js "401") = false ∧
        includes error.message (js "Unauthorized") = false) ∨
      P.confirm reloginPrompt = false) :
    (apiFetch P w url options).1 = .rejected error ∧
    (apiFetch P w url options).2.localStorage = w.localStorage ∧
    (apiFetch P w url options).2.hrefs = w.hrefs := by
  rw [apiFetch_of_error P w url options error hthrown]
  unfold apiFetch.catchBlock
  dsimp only
  rcases hkeep with ⟨h1, h2⟩ | h
  · simp [h1, h2]
  · split_ifs <;> simp_all

/-- C5, instance: a rejected `fetch` with the message `Failed to fetch` is
rethrown, and so is the error of a 401 response when the user declines. -/
theorem apiFetch_rethrows_witness :
    (apiFetch (offline (js "Failed to fetch") true) (loggedIn (js "tok")) (js "/api/x")).1 =
      .rejected ⟨js "TypeError", js "Failed to fetch"⟩ ∧
    (apiFetch (offline (js "Failed to fetch") true) (loggedIn (js "tok")) (js "/api/x")).2.localStorage =
      (loggedIn (js "tok")).localStorage ∧
    (apiFetch (server 401 (js "") false) (loggedIn (js "tok")) (js "/api/x")).1 =
      .rejected ⟨js "Error", js "HTTP 401"⟩ ∧
    (apiFetch (server 401 (js "") false) (loggedIn (js "tok")) (js "/api/x")).2.hrefs = [] :=
  ⟨(apiFetch_rethrows (offline (js "Failed to fetch") true) (loggedIn (js "tok")) (js "/api/x") {}
      ⟨js "TypeError", js "Failed to fetch"⟩ (by rfl) (Or.inl ⟨by decide, by decide⟩)).1,
    (apiFetch_rethrows (offline (js "Failed to fetch") true) (loggedIn (js "tok")) (js "/api/x") {}
      ⟨js "TypeError", js "Failed to fetch"⟩ (by rfl) (Or.inl ⟨by decide, by decide⟩)).2.1,
    (apiFetch_rethrows (server 401 (js "") false) (loggedIn (js "tok")) (js "/api/x") {}
      ⟨js "Error", js "HTTP 401"⟩ (by rfl) (Or.inr (by rfl))).1,
    (apiFetch_rethrows (server 401 (js "") false) (loggedIn (js "tok")) (js "/api/x") {}
      ⟨js "Error", js "HTTP 401"⟩ (by rfl) (Or.inr (by rfl))).2.2⟩

/-- C6: for every error thrown in the `try` block of `apiFetch` whose
message contains `401` or `Unauthorized`, if the user confirms the dialog
then the entry `jwt` is removed from `localStorage`, `/login.html` is
assigned to `location.href`, and `apiFetch` fulfils with `undefined`. -/
theorem apiFetch_relogin (P : Platform) (w : Browser) (url : JSString)
    (options : RequestInit) (error : JSError)
    (hthrown : (apiFetch.tryBlock P w url options).1 = .error error)
    (hauth : includes error.message (js "401") = true ∨
      includes error.message (js "Unauthorized") = true)
    (hconfirm : P.confirm reloginPrompt = true) :
    (apiFetch P w url options).1 = .fulfilled .undefined ∧
    (apiFetch P w url options).2.localStorage = w.localStorage.removeItem (js "jwt") ∧
    (apiFetch P w url options).2.localStorage.getItem (js "jwt") = none ∧
    (apiFetch P w url options).2.hrefs = w.hrefs ++ [js "/login.html"] := by
  rw [apiFetch_of_error P w url options error hthrown]
  unfold apiFetch.catchBlock
  dsimp only
  have hcond : (includes error.message (js "401") ||
      includes error.message (js "Unauthorized")) = true := by
    rcases hauth with h | h <;> simp [h]
  rw [if_pos hcond, if_pos hconfirm]
  exact ⟨rfl, rfl, Storage.getItem_removeItem _ _, rfl⟩

/-- C6, instance: a 401 response with the user confirming removes the
stored `tok`, assigns `/login.html` and fulfils with `undefined`. -/
theorem apiFetch_relogin_witness :
    (apiFetch (server 401 (js "") true) (loggedIn (js "tok")) (js "/api/x")).1 =
      .fulfilled .undefined ∧
    (apiFetch (server 401 (js "") true) (loggedIn (js "tok")) (js "/api/x")).2.localStorage =
      (loggedIn (js "tok")).localStorage.removeItem (js "jwt") ∧
    (apiFetch (server 401 (js "") true) (loggedIn (js "tok")) (js "/api/x")).2.localStorage.getItem
      (js "jwt") = none ∧
    (apiFetch (server 401 (js "") true) (loggedIn (js "tok")) (js "/api/x")).2.hrefs =
      (loggedIn (js "tok")).hrefs ++ [js "/login.html"] :=
  apiFetch_relogin (server 401 (js "") true) (loggedIn (js "tok")) (js "/api/x") {}
    ⟨js "Error", js "HTTP 401"⟩ (by rfl) (Or.inl (by decide)) (by rfl)

/-! ## C9: a successful response -/

/-- C9: for every response with a status in 200-299 whose body parses as a
JSON value `v`, whatever the body text contains, `apiFetch` fulfils with
`v`, shows no dialog, assigns nothing to `location.href` and leaves
`localStorage` as it was; for the body `{"ok":true}` it fulfils with the
object whose only member `ok` is `true`. -/
theorem apiFetch_resolves_parsed_body (P : Platform) (w : Browser) (url : JSString)
    (options : RequestInit) (status : Nat) (body : JSString)
    (hfetch : P.fetch url { options with headers := some (apiFetch.headers P w options) } =
      .ok ⟨status, body⟩)
    (hstatus : 200 ≤ status ∧ status ≤ 299) :
    (∀ v, JSON.parse body = .ok v →
      (apiFetch P w url options).1 = .fulfilled v ∧
      (apiFetch P w url options).2.dialogs = w.dialogs ∧
      (apiFetch P w url options).2.hrefs = w.hrefs ∧
      (apiFetch P w url options).2.localStorage = w.localStorage) ∧
    (body = js "\x7b\"ok\":true\x7d" →
      (apiFetch P w url options).1 = .fulfilled (.obj [(js "ok", .bool true)])) := by
  have htry := apiFetch.tryBlock_of_response P w url options status body hfetch
  rw [if_pos hstatus] at htry
  have hv : ∀ v, JSON.parse body = .ok v →
      apiFetch P w url options = (.fulfilled v,
        { w with requests := w.requests ++
            [(url, { options with headers := some (apiFetch.headers P w options) })] }) := by
    intro v hparse
    rw [hparse] at htry
    exact apiFetch_of_ok P w url options v htry
  refine ⟨?_, ?_⟩
  · intro v hparse
    rw [hv v hparse]
    exact ⟨rfl, rfl, rfl, rfl⟩
  · intro hb
    rw [hv (.obj [(js "ok", .bool true)]) (by subst hb; rfl)]

/-- C9, instance: a 200 response with the body `"401 Unauthorized"` (a JSON
string) fulfils with that string and shows no dialog. -/
theorem apiFetch_resolves_parsed_body_witness :
    (apiFetch (server 200 (js "\"401 Unauthorized\"") true) (loggedIn (js "tok")) (js "/api/x")).1 =
      .fulfilled (.str (js "401 Unauthorized")) ∧
    (apiFetch (server 200 (js "\"401 Unauthorized\"") true) (loggedIn (js "tok")) (js "/api/x")).2.dialogs =
      (loggedIn (js "tok")).dialogs ∧
    (apiFetch (server 200 (js "\"401 Unauthorized\"") true) (loggedIn (js "tok")) (js "/api/x")).2.hrefs =
      (loggedIn (js "tok")).hrefs ∧
    (apiFetch (server 200 (js "\"401 Unauthorized\"") true) (loggedIn (js "tok")) (js "/api/x")).2.localStorage =
      (loggedIn (js "tok")).localStorage :=
  (apiFetch_resolves_parsed_body (server 200 (js "\"401 Unauthorized\"") true) (loggedIn (js "tok"))
    (js "/api/x") {} 200 (js "\"401 Unauthorized\"") (by rfl) (by decide)).1
    (.str (js "401 Unauthorized")) (by rfl)

/-! ## C10: a 401 response always prompts -/

/-- C10: for every response with status 401, whatever its body, the error
thrown in `apiFetch` has a message that contains `401`, and `apiFetch` shows
the re-authentication dialog. -/
theorem apiFetch_401_prompts (P : Platform) (w : Browser) (url : JSString)
    (options : RequestInit) (body : JSString)
    (hfetch : P.fetch url { options with headers := some (apiFetch.headers P w options) } =
      .ok ⟨401, body⟩) :
    (apiFetch.tryBlock P w url options).1 =
      .error ⟨js "Error", apiFetch.errorMessage P 401 body⟩ ∧
    includes (apiFetch.errorMessage P 401 body) (js "401") = true ∧
    (apiFetch P w url options).2.dialogs = w.dialogs ++ [reloginPrompt] := by
  have htry := apiFetch.tryBlock_of_response P w url options 401 body hfetch
  rw [if_neg (by decide)] at htry
  have hinc : includes (apiFetch.errorMessage P 401 body) (js "401") = true := by
    obtain ⟨rest, hrest⟩ := apiFetch.errorMessage_starts P 401 body
    rw [hrest]
    exact includes_append_left _ _ _ (by decide)
  refine ⟨htry, hinc, ?_⟩
  rw [apiFetch_of_error P w url options _ htry]
  unfold apiFetch.catchBlock
  dsimp only
  rw [if_pos (by simp [hinc])]
  split_ifs <;> rfl

/-- C10, instance: a 401 response whose body is the JSON text `null`
throws `HTTP 401: null` and shows the dialog. -/
theorem apiFetch_401_prompts_witness :
    (apiFetch.tryBlock (server 401 (js "null") false) {} (js "/api/x") {}).1 =
      .error ⟨js "Error", apiFetch.errorMessage (server 401 (js "null") false) 401 (js "null")⟩ ∧
    includes (apiFetch.errorMessage (server 401 (js "null") false) 401 (js "null")) (js "401") =
      true ∧
    (apiFetch (server 401 (js "null") false) {} (js "/api/x") {}).2.dialogs =
      ([] : List JSString) ++ [reloginPrompt] :=
  apiFetch_401_prompts (server 401 (js "null") false) {} (js "/api/x") {} (js "null") (by rfl)

/-! ## C8: `cancelAppointment` -/

/-- C8, counterexample: the claim covers every non-empty cancel reason.
For the reason made of the single code unit U+D800, an unpaired surrogate,
`encodeURIComponent` throws, so `cancelAppointment` rejects with the
`URIError` and no request is made: it does not call `apiFetch` at all. -/
theorem cancelAppointment_unpaired_surrogate :
    ([55296] : JSString) ≠ [] ∧
    encodeURIComponent [55296] = none ∧
    (cancelAppointment (server 200 (js "\x7b\x7d") false) {} 5 (some [55296])).1 =
      .rejected ⟨js "URIError", js "URI malformed"⟩ ∧
    (cancelAppointment (server 200 (js "\x7b\x7d") false) {} 5 (some [55296])).2.requests = [] ∧
    (∀ url options, cancelAppointment (server 200 (js "\x7b\x7d") false) {} 5 (some [55296]) ≠
      apiFetch (server 200 (js "\x7b\x7d") false) {} url options) := by
  refine ⟨by decide, by decide, by rfl, by rfl, ?_⟩
  intro url options h
  have h1 : (cancelAppointment (server 200 (js "\x7b\x7d") false) {} 5 (some [55296])).2.requests = [] := by
    rfl
  rw [h] at h1
  exact apiFetch_requests_ne_nil _ _ _ _ h1

/-- C8, as amended: for every appointment id, written `<id>` as the
template literal renders it (its decimal digits whenever the id is an
integer of at most 2^53 - 1), and every non-empty cancel reason without
unpaired surrogates, `encodeURIComponent` yields an encoding and
`cancelAppointment` is the call of `apiFetch` with method POST and the URL
`/api/appointments/<id>/cancel?cancelReason=` followed by that encoding;
with an empty or omitted reason the URL is `/api/appointments/<id>/cancel`;
`cancelAppointment(5, 'no longer needed')` hands `fetch` a POST to
`/api/appointments/5/cancel?cancelReason=no%20longer%20needed`. -/
theorem cancelAppointment_request (P : Platform) (w : Browser) (appointmentId : Nat) :
    (∀ cancelReason, cancelReason ≠ [] → isWellFormed cancelReason = true →
      ∃ encoded, encodeURIComponent cancelReason = some encoded ∧
        cancelAppointment P w appointmentId (some cancelReason) =
          apiFetch P w
            (js "/api/appointments/" ++ idToString P appointmentId ++
              js "/cancel?cancelReason=" ++ encoded)
            { method := some (js "POST") }) ∧
    cancelAppointment P w appointmentId (some []) =
      apiFetch P w (js "/api/appointments/" ++ idToString P appointmentId ++ js "/cancel")
        { method := some (js "POST") } ∧
    cancelAppointment P w appointmentId none =
      apiFetch P w (js "/api/appointments/" ++ idToString P appointmentId ++ js "/cancel")
        { method := some (js "POST") } ∧
    (appointmentId ≤ maxSafeInteger → idToString P appointmentId = decimal appointmentId) ∧
    cancelAppointment P w 5 (some (js "no longer needed")) =
      apiFetch P w (js "/api/appointments/5/cancel?cancelReason=no%20longer%20needed")
        { method := some (js "POST") } ∧
    (∃ headers, (cancelAppointment P w 5 (some (js "no longer needed"))).2.requests =
      w.requests ++ [(js "/api/appointments/5/cancel?cancelReason=no%20longer%20needed",
        { method := some (js "POST"), headers := some headers })]) := by
  have hsample : cancelAppointment P w 5 (some (js "no longer needed")) =
      apiFetch P w (js "/api/appointments/5/cancel?cancelReason=no%20longer%20needed")
        { method := some (js "POST") } := by
    have ht : truthy (some (js "no longer needed")) = true := by decide
    have henc : encodeURIComponent (js "no longer needed") = some (js "no%20longer%20needed") := by
      decide
    have hid : idToString P 5 = js "5" := by
      rw [idToString, if_pos (by decide)]
      decide
    have hurl : js "/api/appointments/" ++ js "5" ++ js "/cancel" ++
        (js "?cancelReason=" ++ js "no%20longer%20needed") =
        js "/api/appointments/5/cancel?cancelReason=no%20longer%20needed" := by decide
    unfold cancelAppointment
    simp only [Option.getD_some, ht, if_true, henc, Option.map_some', hid, hurl]
  have hquery : ∀ encoded : JSString,
      js "/cancel" ++ (js "?cancelReason=" ++ encoded) = js "/cancel?cancelReason=" ++ encoded := by
    intro encoded
    rw [← List.append_assoc]
    exact congrArg (· ++ encoded) (by decide)
  refine ⟨?_, ?_, ?_, ?_, hsample, ?_⟩
  · intro cancelReason hne hwf
    obtain ⟨encoded, henc⟩ := encodeURIComponent_of_isWellFormed cancelReason hwf
    refine ⟨encoded, henc, ?_⟩
    have ht : truthy (some cancelReason) = true := (truthy_eq_true_iff _).2 ⟨_, rfl, hne⟩
    unfold cancelAppointment
    simp [ht, henc, List.append_assoc, hquery]
  · unfold cancelAppointment
    simp [truthy]
  · unfold cancelAppointment
    simp [truthy]
  · intro hsafe
    rw [idToString, if_pos hsafe]
  · rw [hsample, apiFetch_requests]
    exact ⟨_, rfl⟩

/-- C8, instance: cancelling appointment 12 with the reason `a&b` requests
`/api/appointments/<id>/cancel?cancelReason=a%26b`, where `<id>` is `12`. -/
theorem cancelAppointment_request_witness :
    (∃ encoded, encodeURIComponent (js "a&b") = some encoded ∧
      cancelAppointment (server 200 (js "\x7b\x7d") false) {} 12 (some (js "a&b")) =
        apiFetch (server 200 (js "\x7b\x7d") false) {}
          (js "/api/appointments/" ++ idToString (server 200 (js "\x7b\x7d") false) 12 ++
            js "/cancel?cancelReason=" ++ encoded)
          { method := some (js "POST") }) ∧
    idToString (server 200 (js "\x7b\x7d") false) 12 = decimal 12 :=
  ⟨(cancelAppointment_request (server 200 (js "\x7b\x7d") false) {} 12).1 (js "a&b") (by decide)
      (by decide),
    (cancelAppointment_request (server 200 (js "\x7b\x7d") false) {} 12).2.2.2.1 (by decide)⟩

end PromiseService
